import Mathlib

/-!
Verification development for the git commit tracking service.

This file gives a shallow embedding of the JavaScript sources
(`src/controllers/githubController.js`, `src/controllers/webhookController.js`,
`src/scripts/process-commit.js`, `src/utils/googleDocsSync.js`, `src/app.js`)
and proves or refutes the frozen specification claims about them.

Modelling conventions:
- JavaScript values appearing in webhook payloads are modelled by the
  inductive `Json`; a possibly-`undefined` value is `JsVal := Option Json`.
- JSON numbers are modelled as rationals and number rendering is only
  meaningful for integral values (the only numerals this development
  evaluates); JavaScript float formatting is out of scope.
- Thrown exceptions are modelled with `Except Unit`.
- File-system appends and Google-Docs API calls are modelled as explicit
  effect lists returned by the handler functions.
-/

/-- JSON / JavaScript data values (subset: numbers are rationals). -/
inductive Json where
  | null : Json
  | bool : Bool → Json
  | num : ℚ → Json
  | str : String → Json
  | arr : List Json → Json
  | obj : List (String × Json) → Json
deriving Repr

/-- A JavaScript value that may be `undefined` (modelled as `none`). -/
abbrev JsVal := Option Json

/-- JavaScript truthiness of a value (`undefined`, `null`, `false`, `0`, `""` are falsy). -/
def truthy : JsVal → Bool
  | none => false
  | some .null => false
  | some (.bool b) => b
  | some (.num q) => if q = 0 then false else true
  | some (.str s) => if s = "" then false else true
  | some (.arr _) => true
  | some (.obj _) => true

/-- Truthiness test for an environment variable / header modelled as `Option String`:
`undefined` and the empty string are falsy. -/
def strFalsy : Option String → Bool
  | none => true
  | some s => s == ""

/-- First-match lookup of a key in a JavaScript object's property list
(property access `o[key]`, `undefined` when absent). -/
def lookupKey : List (String × Json) → String → JsVal
  | [], _ => none
  | (k, v) :: ps, key => if key = k then some v else lookupKey ps key

/-- JavaScript property access `v.key`: throws (`.error`) on `undefined`/`null`,
returns `undefined` for properties of primitives and arrays, looks up objects. -/
def jsGet (v : JsVal) (key : String) : Except Unit JsVal :=
  match v with
  | none => .error ()
  | some .null => .error ()
  | some (.obj ps) => .ok (lookupKey ps key)
  | some _ => .ok none

/-- JavaScript `v.length`: throws on `undefined`/`null`; a number for arrays and
strings; `undefined` (`none`) otherwise. -/
def jsLenGuard : JsVal → Except Unit (Option Nat)
  | none => .error ()
  | some .null => .error ()
  | some (.arr xs) => .ok (some xs.length)
  | some (.str s) => .ok (some s.length)
  | some _ => .ok none

/-- Hexadecimal digit character for `n < 16` (lowercase, as ECMA-262 produces). -/
def hexDigit (n : Nat) : Char :=
  if n < 10 then Char.ofNat (48 + n) else Char.ofNat (87 + n)

/-- Value of a hexadecimal digit character (either case), as JSON.parse accepts. -/
def hexVal (c : Char) : Option Nat :=
  if 48 ≤ c.toNat ∧ c.toNat ≤ 57 then some (c.toNat - 48)
  else if 97 ≤ c.toNat ∧ c.toNat ≤ 102 then some (c.toNat - 87)
  else if 65 ≤ c.toNat ∧ c.toNat ≤ 70 then some (c.toNat - 55)
  else none

/-- ECMA-262 `QuoteJSONString` escaping of a single character. -/
def escChar (c : Char) : List Char :=
  if c = '"' then ['\\', '"']
  else if c = '\\' then ['\\', '\\']
  else if c = '\x08' then ['\\', 'b']
  else if c = '\x0c' then ['\\', 'f']
  else if c = '\n' then ['\\', 'n']
  else if c = '\r' then ['\\', 'r']
  else if c = '\t' then ['\\', 't']
  else if c.toNat < 32 then
    ['\\', 'u', '0', '0', hexDigit (c.toNat / 16), hexDigit (c.toNat % 16)]
  else [c]

/-- Escape a character list per `QuoteJSONString`. -/
def escList : List Char → List Char
  | [] => []
  | c :: cs => escChar c ++ escList cs

/-- A quoted JSON string literal for `s` (as `JSON.stringify` renders strings). -/
def jStrChars (s : String) : List Char := '"' :: escList s.data ++ ['"']

/-- Characters of a JSON number; faithful for integral values (the only ones
this development renders), as JavaScript prints integral doubles without
a fraction part. -/
def numChars (q : ℚ) : List Char :=
  if q.den = 1 then (toString q.num).data else (toString q).data

mutual

/-- ECMA-262 `JSON.stringify(v, null, gap)` on the `Json` subset: `gap = []`
is the compact one-argument form, a non-empty `gap` (two spaces in this
repository) produces the pretty-printed form; `ind` is the current
accumulated indentation. -/
def renderJson (gap ind : List Char) : Json → List Char
  | .null => "null".data
  | .bool b => if b then "true".data else "false".data
  | .num q => numChars q
  | .str s => jStrChars s
  | .arr [] => "[]".data
  | .arr (v :: vs) =>
    if gap.isEmpty then
      '[' :: renderJson [] [] v ++ renderItemsC vs ++ [']']
    else
      '[' :: '\n' :: ((ind ++ gap) ++ renderJson gap (ind ++ gap) v ++
        renderItemsG gap ind vs ++ '\n' :: ind ++ [']'])
  | .obj [] => ['\x7b', '\x7d']
  | .obj (p :: ps) =>
    if gap.isEmpty then
      '\x7b' :: (jStrChars p.1 ++ ':' :: renderJson [] [] p.2 ++ renderPropsC ps ++ ['\x7d'])
    else
      '\x7b' :: '\n' :: ((ind ++ gap) ++ jStrChars p.1 ++ ':' :: ' ' ::
        renderJson gap (ind ++ gap) p.2 ++ renderPropsG gap ind ps ++ '\n' :: ind ++ ['\x7d'])

/-- Remaining comma-separated array items, compact form. -/
def renderItemsC : List Json → List Char
  | [] => []
  | v :: vs => ',' :: renderJson [] [] v ++ renderItemsC vs

/-- Remaining array items, pretty form (`ind` is the indentation of the bracket). -/
def renderItemsG (gap ind : List Char) : List Json → List Char
  | [] => []
  | v :: vs => ',' :: '\n' :: ((ind ++ gap) ++ renderJson gap (ind ++ gap) v ++ renderItemsG gap ind vs)

/-- Remaining object properties, compact form. -/
def renderPropsC : List (String × Json) → List Char
  | [] => []
  | p :: ps => ',' :: jStrChars p.1 ++ ':' :: renderJson [] [] p.2 ++ renderPropsC ps

/-- Remaining object properties, pretty form. -/
def renderPropsG (gap ind : List Char) : List (String × Json) → List Char
  | [] => []
  | p :: ps => ',' :: '\n' :: ((ind ++ gap) ++ jStrChars p.1 ++ ':' :: ' ' ::
      renderJson gap (ind ++ gap) p.2 ++ renderPropsG gap ind ps)

end

mutual

/-- JavaScript `String(v)` coercion used by template literals on a `Json` value. -/
def jsonToStr : Json → String
  | .null => "null"
  | .bool b => if b then "true" else "false"
  | .num q => String.mk (numChars q)
  | .str s => s
  | .arr vs => jsonArrToStr vs
  | .obj _ => "[object Object]"

/-- Array-to-string coercion: elements joined with commas, `null` elements empty. -/
def jsonArrToStr : List Json → String
  | [] => ""
  | [v] => jsonElemStr v
  | v :: vs => jsonElemStr v ++ "," ++ jsonArrToStr vs

/-- Element coercion inside `Array.prototype.toString`: `null` becomes empty. -/
def jsonElemStr : Json → String
  | .null => ""
  | v => jsonToStr v

end

/-- Template-literal interpolation `${v}` of a possibly-`undefined` value. -/
def jsToStr : JsVal → String
  | none => "undefined"
  | some j => jsonToStr j

/-- Whitespace recognized between JSON tokens. -/
def isWsChar (c : Char) : Bool := c == ' ' || c == '\n' || c == '\t' || c == '\r'

/-- Drop leading JSON whitespace. -/
def skipWs : List Char → List Char
  | [] => []
  | c :: l => if isWsChar c then skipWs l else c :: l

/-- Consume an exact literal token, returning the rest on success. -/
def dropLit : List Char → List Char → Option (List Char)
  | [], l => some l
  | _ :: _, [] => none
  | t :: ts, c :: l => if c == t then dropLit ts l else none

/-- Combine four hexadecimal digit characters into a code point. -/
def hex4 (a b c d : Char) : Option Nat := do
  let x ← hexVal a
  let y ← hexVal b
  let z ← hexVal c
  let w ← hexVal d
  return ((x * 16 + y) * 16 + z) * 16 + w

/-- Parse the body of a JSON string literal (the opening quote already
consumed), unescaping per the JSON grammar; returns the decoded characters
and the input after the closing quote. -/
def parseStrBody : List Char → Option (List Char × List Char)
  | [] => none
  | c :: rest =>
    if c == '"' then some ([], rest)
    else if c == '\\' then
      match rest with
      | [] => none
      | e :: rest2 =>
        if e == '"' || e == '\\' || e == '/' then
          (parseStrBody rest2).map (fun p => (e :: p.1, p.2))
        else if e == 'b' then (parseStrBody rest2).map (fun p => ('\x08' :: p.1, p.2))
        else if e == 'f' then (parseStrBody rest2).map (fun p => ('\x0c' :: p.1, p.2))
        else if e == 'n' then (parseStrBody rest2).map (fun p => ('\n' :: p.1, p.2))
        else if e == 'r' then (parseStrBody rest2).map (fun p => ('\r' :: p.1, p.2))
        else if e == 't' then (parseStrBody rest2).map (fun p => ('\t' :: p.1, p.2))
        else if e == 'u' then
          match rest2 with
          | a :: b :: c2 :: d :: rest3 =>
            match hex4 a b c2 d with
            | some n => (parseStrBody rest3).map (fun p => (Char.ofNat n :: p.1, p.2))
            | none => none
          | _ => none
        else none
    else (parseStrBody rest).map (fun p => (c :: p.1, p.2))

/-- Numeric value of a decimal digit character. -/
def digitVal (c : Char) : Option Nat :=
  if 48 ≤ c.toNat ∧ c.toNat ≤ 57 then some (c.toNat - 48) else none

/-- Take a maximal run of decimal digits. -/
def takeDigits : List Char → (List Nat × List Char)
  | [] => ([], [])
  | c :: l =>
    match digitVal c with
    | some d => let (ds, rest) := takeDigits l; (d :: ds, rest)
    | none => ([], c :: l)

mutual

/-- Fuel-indexed model of `JSON.parse` (integer numerals only); the fuel is
an upper bound on nesting consumed, instantiated with the input length. -/
def parseJsonVal : Nat → List Char → Option (Json × List Char)
  | 0, _ => none
  | fuel + 1, l =>
    match skipWs l with
    | [] => none
    | c :: rest =>
      if c == 'n' then (dropLit ['u', 'l', 'l'] rest).map (fun r => (Json.null, r))
      else if c == 't' then (dropLit ['r', 'u', 'e'] rest).map (fun r => (Json.bool true, r))
      else if c == 'f' then (dropLit ['a', 'l', 's', 'e'] rest).map (fun r => (Json.bool false, r))
      else if c == '"' then
        (parseStrBody rest).map (fun p => (Json.str (String.mk p.1), p.2))
      else if c == '[' then
        match skipWs rest with
        | ']' :: rest2 => some (Json.arr [], rest2)
        | l2 =>
          match parseJsonVal fuel l2 with
          | some (v, rest2) =>
            (parseJsonItems fuel rest2).map (fun p => (Json.arr (v :: p.1), p.2))
          | none => none
      else if c == '\x7b' then
        match skipWs rest with
        | '\x7d' :: rest2 => some (Json.obj [], rest2)
        | l2 =>
          match parseJsonProp fuel l2 with
          | some (kv, rest2) =>
            (parseJsonProps fuel rest2).map (fun p => (Json.obj (kv :: p.1), p.2))
          | none => none
      else if c == '-' then
        match takeDigits rest with
        | ([], _) => none
        | (ds, rest2) =>
          some (Json.num (-(ds.foldl (fun acc d => acc * 10 + d) 0 : Int)), rest2)
      else
        match takeDigits (c :: rest) with
        | ([], _) => none
        | (ds, rest2) =>
          some (Json.num ((ds.foldl (fun acc d => acc * 10 + d) 0 : Int)), rest2)

/-- Remaining array items after the first (`,` separated, closed by `]`). -/
def parseJsonItems : Nat → List Char → Option (List Json × List Char)
  | 0, _ => none
  | fuel + 1, l =>
    match skipWs l with
    | ']' :: rest => some ([], rest)
    | ',' :: rest =>
      match parseJsonVal fuel rest with
      | some (v, rest2) => (parseJsonItems fuel rest2).map (fun p => (v :: p.1, p.2))
      | none => none
    | _ => none

/-- One `"key": value` object member. -/
def parseJsonProp : Nat → List Char → Option ((String × Json) × List Char)
  | 0, _ => none
  | fuel + 1, l =>
    match skipWs l with
    | '"' :: rest =>
      match parseStrBody rest with
      | some (k, rest2) =>
        match dropLit [':'] (skipWs rest2) with
        | some rest3 =>
          (parseJsonVal fuel rest3).map (fun p => ((String.mk k, p.1), p.2))
        | none => none
      | none => none
    | _ => none

/-- Remaining object members after the first (`,` separated, closed). -/
def parseJsonProps : Nat → List Char → Option (List (String × Json) × List Char)
  | 0, _ => none
  | fuel + 1, l =>
    match skipWs l with
    | '\x7d' :: rest => some ([], rest)
    | ',' :: rest =>
      match parseJsonProp fuel rest with
      | some (kv, rest2) => (parseJsonProps fuel rest2).map (fun p => (kv :: p.1, p.2))
      | none => none
    | _ => none

end

/-- Model of `JSON.parse` over a whole input string, as the `express.json()`
body parser in `src/app.js` applies it to the raw request body. -/
def jsonParseTop (s : String) : Option Json :=
  match parseJsonVal (s.length + 1) s.data with
  | some (v, rest) => if skipWs rest = [] then some v else none
  | none => none

/-- UTF-8 encoding of one scalar value. -/
def charUtf8 (c : Char) : List Nat :=
  let n := c.toNat
  if n < 128 then [n]
  else if n < 2048 then [192 + n / 64, 128 + n % 64]
  else if n < 65536 then [224 + n / 4096, 128 + n / 64 % 64, 128 + n % 64]
  else [240 + n / 262144, 128 + n / 4096 % 64, 128 + n / 64 % 64, 128 + n % 64]

/-- Byte contents of `Buffer.from(s)` (UTF-8). -/
def utf8Bytes (s : String) : List Nat := s.data.flatMap charUtf8

/-- Model of Node's `crypto.timingSafeEqual`: it throws when the two buffers
have different lengths and otherwise reports byte-sequence equality. -/
def timingSafeEqual (a b : List Nat) : Except Unit Bool :=
  if a.length = b.length then .ok (a == b) else .error ()

/-- The exact string the verifier feeds to the HMAC: `JSON.stringify(payload)`
applied to the already-parsed request body (`hmac.update(JSON.stringify(payload))`
in `verifyGithubWebhook`, `src/controllers/githubController.js`). -/
def macMessage (payload : Json) : String := String.mk (renderJson [] [] payload)

/-- `verifyGithubWebhook(payload, signature)` from
`src/controllers/githubController.js`; `hmacHex key msg` abstracts
`crypto.createHmac('sha256', key).update(msg).digest('hex')`. -/
def verifyGithubWebhook (secret : Option String) (hmacHex : String → String → String)
    (payload : Json) (signature : Option String) : Except Unit Bool :=
  if strFalsy signature || strFalsy secret then .ok false
  else
    let digest := "sha256=" ++ hmacHex (secret.getD "") (macMessage payload)
    timingSafeEqual (utf8Bytes digest) (utf8Bytes (signature.getD ""))

/-- `git diff-tree --name-status` entry of `process-commit.js`:
a status letter and a path. -/
structure FileChange where
  status : String
  file : String
deriving Repr, DecidableEq

/-- Committer identity of a commit record. -/
structure Committer where
  name : String
  email : String
deriving Repr, DecidableEq

/-- The `commitInfo` record assembled by `processCommit` in
`src/scripts/process-commit.js` (all fields strings, as produced there). -/
structure CommitRecord where
  id : String
  previousCommit : String
  committer : Committer
  message : String
  timestamp : String
  filesChanged : List FileChange
  diff : String
deriving Repr, DecidableEq

/-- Status-to-symbol mapping from `formatCommitForDocs`
(`file.status === 'A' ? '+' : file.status === 'D' ? '-' : '~'`). -/
def statusSymbol (status : String) : String :=
  if status = "A" then "+" else if status = "D" then "-" else "~"

/-- `formatCommitForDocs(commitInfo)` from `src/scripts/process-commit.js`. -/
def formatCommitForDocs (r : CommitRecord) : String :=
  "==================== COMMIT DETAILS ====================\n" ++
  "Committer: " ++ r.committer.name ++ " <" ++ r.committer.email ++ ">\n" ++
  "Commit ID: " ++ r.id ++ "\n" ++
  "Previous Commit: " ++ r.previousCommit ++ "\n" ++
  "Date: " ++ r.timestamp ++ "\n" ++
  "Message: " ++ r.message ++ "\n\n" ++
  "============ CHANGED FILES ============\n" ++
  String.join (r.filesChanged.map (fun f => statusSymbol f.status ++ " " ++ f.file ++ "\n")) ++
  "\n" ++
  "============ DIFF OUTPUT ============\n" ++
  r.diff ++ "\n" ++
  "===========================================\n\n"

/-- The fixed plaintext layout of spec section 4.1, written from the spec's
template: header line, `Committer: <name> <<email>>`, `Commit ID`,
`Previous Commit`, `Date`, `Message`, blank line, `CHANGED FILES` section with
one `<statusSymbol> <path>` line per file in input order, blank line,
`DIFF OUTPUT` section with the diff text, closing delimiter. Used as the
comparison target for the formatter refinement. -/
def spec41Plaintext (r : CommitRecord) : String :=
  "==================== COMMIT DETAILS ====================\n" ++
  "Committer: " ++ r.committer.name ++ " <" ++ r.committer.email ++ ">\n" ++
  "Commit ID: " ++ r.id ++ "\n" ++
  "Previous Commit: " ++ r.previousCommit ++ "\n" ++
  "Date: " ++ r.timestamp ++ "\n" ++
  "Message: " ++ r.message ++ "\n\n" ++
  "============ CHANGED FILES ============\n" ++
  String.join (r.filesChanged.map (fun f => statusSymbol f.status ++ " " ++ f.file ++ "\n")) ++
  "\n" ++
  "============ DIFF OUTPUT ============\n" ++
  r.diff ++ "\n" ++
  "===========================================\n\n"

/-- First line of the section 4.1 layout (without its newline). -/
def spec41Header : String := "==================== COMMIT DETAILS ===================="

/-- Two-space gap passed to `JSON.stringify(commitInfo, null, 2)`. -/
def gap2 : List Char := [' ', ' ']

/-- JSON form of one `filesChanged` entry (`{ status, file }` in
`processCommit`, with that key insertion order). -/
def fileJson (f : FileChange) : Json :=
  .obj [("status", .str f.status), ("file", .str f.file)]

/-- The JavaScript object literal `commitInfo` of `processCommit`, with its
source key insertion order. -/
def commitJson (r : CommitRecord) : Json :=
  .obj [("id", .str r.id), ("previousCommit", .str r.previousCommit),
        ("committer", .obj [("name", .str r.committer.name), ("email", .str r.committer.email)]),
        ("message", .str r.message), ("timestamp", .str r.timestamp),
        ("filesChanged", .arr (r.filesChanged.map fileJson)),
        ("diff", .str r.diff)]

/-- Top-level key sequence of an object value. -/
def objKeys : Json → List String
  | .obj kvs => kvs.map Prod.fst
  | _ => []

/-- Path of the JSON commit log (`PROCESSED_LOG_FILE`). -/
def processedLogPath : String := "logs/processed-commits.log"

/-- Path of the plaintext commit log (`COMMITS_LOG_FILE`). -/
def commitsLogPath : String := "logs/commits.log"

/-- The entry `logProcessedCommit` appends to `processed-commits.log`:
`JSON.stringify(commitInfo, null, 2)` followed by two newlines. -/
def processedLogEntry (r : CommitRecord) : String :=
  String.mk (renderJson gap2 [] (commitJson r)) ++ "\n\n"

/-- Replace the first occurrence of `pat` in a character list
(JavaScript `String.prototype.replace` with a string pattern). -/
def replaceFirstAux (pat repl : List Char) : List Char → List Char
  | [] => []
  | c :: l =>
    if pat.isPrefixOf (c :: l) then repl ++ (c :: l).drop pat.length
    else c :: replaceFirstAux pat repl l

/-- JavaScript `s.replace(pat, repl)` with a string pattern: first occurrence only. -/
def replaceFirst (s pat repl : String) : String :=
  String.mk (replaceFirstAux pat.data repl.data s.data)

/-- The `'='.repeat(80)` delimiter of `handlePushEvent`. -/
def eq80 : String := String.mk (List.replicate 80 '=')

/-- One `Added Files:` / `Modified Files:` / `Removed Files:` section of a
`handlePushEvent` commit block: emitted only when `.length > 0`; accessing
`.length` of a missing list throws; `forEach` over a non-array throws. -/
def fileSectionJ (title sym : String) (v : JsVal) : Except Unit String := do
  let len ← jsLenGuard v
  match len with
  | some n =>
    if n > 0 then
      match v with
      | some (.arr xs) =>
        .ok (title ++ "\n" ++
          String.join (xs.map (fun f => "  " ++ sym ++ " " ++ jsToStr (some f) ++ "\n")) ++ "\n")
      | _ => .error ()
    else .ok ""
  | none => .ok ""

/-- One per-commit block built inside the `for (const commit of commits)` loop
of `handlePushEvent` (`src/controllers/githubController.js`). -/
def commitBlockJ (prev : JsVal) (commit : Json) : Except Unit String := do
  let committer ← jsGet (some commit) "committer"
  let cname ← jsGet committer "name"
  let cemail ← jsGet committer "email"
  let cid ← jsGet (some commit) "id"
  let msg ← jsGet (some commit) "message"
  let added ← jsGet (some commit) "added"
  let modified ← jsGet (some commit) "modified"
  let removed ← jsGet (some commit) "removed"
  let sa ← fileSectionJ "Added Files:" "+" added
  let sm ← fileSectionJ "Modified Files:" "~" modified
  let sr ← fileSectionJ "Removed Files:" "-" removed
  .ok (eq80 ++ "\n" ++
    "Committer: " ++ jsToStr cname ++ " (" ++ jsToStr cemail ++ ")\n" ++
    "Commit ID: " ++ jsToStr cid ++ "\n" ++
    "Previous Commit: " ++ jsToStr prev ++ "\n" ++
    "Message: " ++ jsToStr msg ++ "\n\n" ++ sa ++ sm ++ sr ++ "\n")

/-- `handlePushEvent(payload)` from `src/controllers/githubController.js`:
returns the file appends it performs (path, content). An empty or missing
commits list is a no-op; a thrown `TypeError` (missing `pusher`,
`repository`, non-string `ref`, malformed `commits`) is `.error`. `now`
stands for `new Date().toISOString()`. The Google-Docs sync it triggers
performs no file-system write and swallows its own errors, so it does not
appear in the result. -/
def handlePushEvent (now : String) (payload : Json) : Except Unit (List (String × String)) := do
  let commits ← jsGet (some payload) "commits"
  let repository ← jsGet (some payload) "repository"
  let pusher ← jsGet (some payload) "pusher"
  let previousCommit ← jsGet (some payload) "before"
  if truthy commits = false then .ok []
  else do
    let lenOpt ← jsLenGuard commits
    if lenOpt == some 0 then .ok []
    else do
      let _ ← jsGet pusher "name"
      let repoName ← jsGet repository "full_name"
      let refVal ← jsGet (some payload) "ref"
      let branch ← match refVal with
        | some (.str s) => .ok (replaceFirst s "refs/heads/" "")
        | _ => .error ()
      let pname ← jsGet pusher "name"
      let pemail ← jsGet pusher "email"
      let commitsArr ← match commits with
        | some (.arr xs) => .ok xs
        | _ => .error ()
      let blocks ← commitsArr.mapM (commitBlockJ previousCommit)
      .ok [(commitsLogPath,
        "Repository: " ++ jsToStr repoName ++ "\n" ++
        "Branch: " ++ branch ++ "\n" ++
        "Pushed by: " ++ jsToStr pname ++ " (" ++ jsToStr pemail ++ ")\n" ++
        "Date: " ++ now ++ "\n\n" ++ String.join blocks)]

/-- HTTP outcome of the GitHub webhook controller: response status plus the
file appends performed. -/
structure GHResult where
  status : Nat
  writes : List (String × String)
deriving Repr, DecidableEq

/-- Event dispatch (`switch (githubEvent)`) of `handleGithubWebhook`:
`push` runs `handlePushEvent` (a throw is caught and answered with 500),
every other event type is acknowledged with 200. -/
def handleEventDispatch (now : String) (event : Option String) (body : Json) : GHResult :=
  if event == some "push" then
    match handlePushEvent now body with
    | .error _ => ⟨500, []⟩
    | .ok ws => ⟨200, ws⟩
  else ⟨200, []⟩

/-- `handleGithubWebhook(req, res)` from `src/controllers/githubController.js`:
missing/empty `X-GitHub-Event` header gives 400; with a configured secret an
invalid signature gives 401 and a thrown verifier error is caught as 500;
otherwise the event is dispatched. -/
def handleGithubWebhook (secret : Option String) (hmacHex : String → String → String)
    (now : String) (event signature : Option String) (body : Json) : GHResult :=
  if strFalsy event then ⟨400, []⟩
  else if strFalsy secret = false then
    match verifyGithubWebhook secret hmacHex body signature with
    | .error _ => ⟨500, []⟩
    | .ok false => ⟨401, []⟩
    | .ok true => handleEventDispatch now event body
  else handleEventDispatch now event body

/-- The chat-completion request `processContentRequest` assembles for
`openai.chat.completions.create` (`src/controllers/webhookController.js`). -/
structure ChatRequest where
  model : JsVal
  system : String
  user : JsVal
  temperature : JsVal
  maxTokens : JsVal
deriving Repr

/-- Default prompt text substituted for a falsy `data.prompt`. -/
def defaultPrompt : String := "Tell me something interesting"

/-- JavaScript `v || d`. -/
def jsOr (v d : JsVal) : JsVal := if truthy v then v else d

/-- The argument object of the `openai.chat.completions.create` call:
`data.model || "gpt-3.5-turbo"`, context-dependent system message,
`data.prompt || default`, `data.temperature || 0.7`, `data.max_tokens || 500`.
Property access on an `undefined`/`null` `data` throws. -/
def buildChatRequest (data : JsVal) : Except Unit ChatRequest := do
  let prompt ← jsGet data "prompt"
  let context ← jsGet data "context"
  let model ← jsGet data "model"
  let temp ← jsGet data "temperature"
  let maxTok ← jsGet data "max_tokens"
  .ok ⟨jsOr model (some (.str "gpt-3.5-turbo")),
       (if truthy context then "You are a helpful assistant. Context: " ++ jsToStr context
        else "You are a helpful assistant."),
       jsOr prompt (some (.str defaultPrompt)),
       jsOr temp (some (.num (7 / 10))),
       jsOr maxTok (some (.num 500))⟩

/-- `processContentRequest(data)`: throws when no API key is configured
(`getOpenAIClient` returns `null`), otherwise produces the request it sends. -/
def processContentRequest (apiKey : Option String) (data : JsVal) : Except Unit ChatRequest :=
  if strFalsy apiKey then .error () else buildChatRequest data

/-- HTTP outcome of the generic webhook controller: status, whether the
response's `data` field is JSON `null`, and the chat-completion calls made. -/
structure WebhookResult where
  status : Nat
  dataIsNull : Bool
  apiCalls : List ChatRequest
deriving Repr

/-- `handleWebhook(req, res)` from `src/controllers/webhookController.js`:
destructures `{event, data}` (throwing on a `null` body gives 500), answers
400 when `event` is falsy, runs `processContentRequest` for
`event === 'content_request'` (its throw answered with 500), and
acknowledges every other event with 200 and `data: null`. -/
def handleWebhook (apiKey : Option String) (body : Json) : WebhookResult :=
  match jsGet (some body) "event", jsGet (some body) "data" with
  | .error _, _ => ⟨500, false, []⟩
  | _, .error _ => ⟨500, false, []⟩
  | .ok ev, .ok data =>
    if truthy ev = false then ⟨400, false, []⟩
    else
      match ev with
      | some (.str s) =>
        if s = "content_request" then
          match processContentRequest apiKey data with
          | .error _ => ⟨500, false, []⟩
          | .ok req => ⟨200, false, [req]⟩
        else ⟨200, true, []⟩
      | _ => ⟨200, true, []⟩

/-- Remote document API calls issued by the Google Docs sync client. -/
inductive DocsEffect where
  | get : String → DocsEffect
  | update : String → String → DocsEffect
deriving Repr, DecidableEq

/-- `appendToDocument(content, documentId)` of `src/utils/googleDocsSync.js`,
with `docsReady` standing for `this.initialized`. A fresh client first runs
`initialize`, which fails (returning `false`, no network traffic) when the
credentials path is unset; then `documentId || GOOGLE_DOCS_ID` is resolved and
a falsy result returns `false` before any document call; otherwise the
document is fetched and one insert request is issued (the remote API is
modelled as succeeding). -/
def appendToDocument (credsPath docsId : Option String) (docsReady : Bool)
    (content : String) (documentId : Option String) : Bool × List DocsEffect :=
  if docsReady = false ∧ strFalsy credsPath = true then (false, [])
  else
    let docId := if strFalsy documentId then docsId else documentId
    if strFalsy docId then (false, [])
    else (true, [.get (docId.getD ""), .update (docId.getD "") content])

/-- A structurally well-formed push-webhook commit entry
(`commits[]` element of the GitHub push payload, section 6 of the spec). -/
structure WCommit where
  id : String
  message : String
  committerName : String
  committerEmail : String
  added : List String
  modified : List String
  removed : List String
deriving Repr

/-- A structurally well-formed GitHub push payload. -/
structure WPush where
  ref : String
  before : String
  after : String
  repoFullName : String
  pusherName : String
  pusherEmail : String
  commits : List WCommit
deriving Repr

/-- Injection of a well-formed commit entry into the JSON payload model. -/
def wcommitJson (c : WCommit) : Json :=
  .obj [("id", .str c.id), ("message", .str c.message),
        ("committer", .obj [("name", .str c.committerName), ("email", .str c.committerEmail)]),
        ("added", .arr (c.added.map .str)),
        ("modified", .arr (c.modified.map .str)),
        ("removed", .arr (c.removed.map .str))]

/-- Injection of a well-formed push payload into the JSON payload model. -/
def wpushJson (p : WPush) : Json :=
  .obj [("ref", .str p.ref), ("before", .str p.before), ("after", .str p.after),
        ("repository", .obj [("full_name", .str p.repoFullName)]),
        ("pusher", .obj [("name", .str p.pusherName), ("email", .str p.pusherEmail)]),
        ("commits", .arr (p.commits.map wcommitJson))]

/-- One file section of the push-handler layout (the comparison template for
the amended formatting claim): present only for a non-empty list. -/
def pushFileSection (title sym : String) (files : List String) : String :=
  if files = [] then ""
  else title ++ "\n" ++ String.join (files.map (fun f => "  " ++ sym ++ " " ++ f ++ "\n")) ++ "\n"

/-- Per-commit block of the push-handler layout: 80-equals delimiter,
`Committer: <name> (<email>)`, commit id, previous commit, message, and the
three file sections. -/
def pushCommitBlock (prev : String) (c : WCommit) : String :=
  eq80 ++ "\n" ++
  "Committer: " ++ c.committerName ++ " (" ++ c.committerEmail ++ ")\n" ++
  "Commit ID: " ++ c.id ++ "\n" ++
  "Previous Commit: " ++ prev ++ "\n" ++
  "Message: " ++ c.message ++ "\n\n" ++
  pushFileSection "Added Files:" "+" c.added ++
  pushFileSection "Modified Files:" "~" c.modified ++
  pushFileSection "Removed Files:" "-" c.removed ++ "\n"

/-- The full plaintext entry the push handler appends to `commits.log` for a
well-formed payload: repository/branch/pusher/date header then one block per
commit (the layout the amended claim describes). -/
def pushLogLayout (now : String) (p : WPush) : String :=
  "Repository: " ++ p.repoFullName ++ "\n" ++
  "Branch: " ++ replaceFirst p.ref "refs/heads/" "" ++ "\n" ++
  "Pushed by: " ++ p.pusherName ++ " (" ++ p.pusherEmail ++ ")\n" ++
  "Date: " ++ now ++ "\n\n" ++
  String.join (p.commits.map (pushCommitBlock p.before))

/-- Parse a quoted JSON string after optional whitespace. -/
def parseQuotedString (l : List Char) : Option (String × List Char) :=
  match dropLit ['"'] (skipWs l) with
  | some l2 => (parseStrBody l2).map (fun p => (String.mk p.1, p.2))
  | none => none

/-- Consume `"key":` (with arbitrary interleaved whitespace). -/
def parseKeyed (key : String) (l : List Char) : Option (List Char) :=
  match dropLit ('"' :: key.data ++ ['"']) (skipWs l) with
  | some l2 => dropLit [':'] (skipWs l2)
  | none => none

/-- Consume `"key": "value"` and return the decoded value. -/
def parseStrField (key : String) (l : List Char) : Option (String × List Char) :=
  match parseKeyed key l with
  | some l2 => parseQuotedString l2
  | none => none

/-- Consume a comma after optional whitespace. -/
def parseComma (l : List Char) : Option (List Char) := dropLit [','] (skipWs l)

/-- Parse one `{"status": …, "file": …}` object of the `filesChanged` array. -/
def parseFileObj (l : List Char) : Option (FileChange × List Char) := do
  let l1 ← dropLit ['\x7b'] (skipWs l)
  let (st, l2) ← parseStrField "status" l1
  let l3 ← parseComma l2
  let (fl, l4) ← parseStrField "file" l3
  let l5 ← dropLit ['\x7d'] (skipWs l4)
  return (⟨st, fl⟩, l5)

/-- Parse the remaining `filesChanged` entries after the first (comma
separated, closed by `]`); the fuel bounds the number of entries. -/
def parseFileTail (fuel : Nat) (l : List Char) : Option (List FileChange × List Char) :=
  match fuel with
  | 0 => none
  | fuel + 1 =>
    match parseComma l with
    | some l2 =>
      match parseFileObj l2 with
      | some (fc, l3) => (parseFileTail fuel l3).map (fun p => (fc :: p.1, p.2))
      | none => none
    | none =>
      match dropLit [']'] (skipWs l) with
      | some l2 => some ([], l2)
      | none => none

/-- Parse the complete `filesChanged` array. -/
def parseFileArr (l : List Char) : Option (List FileChange × List Char) := do
  let l1 ← dropLit ['['] (skipWs l)
  match dropLit [']'] (skipWs l1) with
  | some l2 => some ([], l2)
  | none => do
    let (fc, l2) ← parseFileObj l1
    let (fcs, l3) ← parseFileTail (l2.length + 1) l2
    return (fc :: fcs, l3)

/-- Parse the opening brace, `id` and `previousCommit` fields of a record. -/
def parseRecIds (l : List Char) : Option ((String × String) × List Char) := do
  let l1 ← dropLit ['\x7b'] (skipWs l)
  let (cid, l2) ← parseStrField "id" l1
  let l3 ← parseComma l2
  let (prev, l4) ← parseStrField "previousCommit" l3
  let l5 ← parseComma l4
  return ((cid, prev), l5)

/-- Parse the nested `committer` object. -/
def parseCommitterObj (l : List Char) : Option (Committer × List Char) := do
  let l1 ← parseKeyed "committer" l
  let l2 ← dropLit ['\x7b'] (skipWs l1)
  let (nm, l3) ← parseStrField "name" l2
  let l4 ← parseComma l3
  let (em, l5) ← parseStrField "email" l4
  let l6 ← dropLit ['\x7d'] (skipWs l5)
  return (⟨nm, em⟩, l6)

/-- Parse the `message` and `timestamp` fields (each preceded by a comma). -/
def parseRecMsgTs (l : List Char) : Option ((String × String) × List Char) := do
  let l1 ← parseComma l
  let (msg, l2) ← parseStrField "message" l1
  let l3 ← parseComma l2
  let (ts, l4) ← parseStrField "timestamp" l3
  let l5 ← parseComma l4
  return ((msg, ts), l5)

/-- Parse the `filesChanged` array, the `diff` field and the closing brace;
succeeds only when nothing but whitespace remains. -/
def parseRecFilesDiff (l : List Char) : Option (List FileChange × String) := do
  let l1 ← parseKeyed "filesChanged" l
  let (fcs, l2) ← parseFileArr l1
  let l3 ← parseComma l2
  let (df, l4) ← parseStrField "diff" l3
  let l5 ← dropLit ['\x7d'] (skipWs l4)
  if skipWs l5 = [] then return (fcs, df) else none

/-- Deserializer for one record of `processed-commits.log`: `JSON.parse`
restricted to the fixed CommitRecord schema (arbitrary whitespace between
tokens, full string unescaping), the reading half of the round-trip
invariant of spec section 3. -/
def parseCommitRecord (s : String) : Option CommitRecord := do
  let (ids, l1) ← parseRecIds s.data
  let (cm, l2) ← parseCommitterObj l1
  let (mt, l3) ← parseRecMsgTs l2
  let (fd, df) ← parseRecFilesDiff l3
  return ⟨ids.1, ids.2, cm, mt.1, mt.2, fd, df⟩

/-- Raw request body used to exhibit the re-serialization mismatch: a valid
JSON object containing one interior space. -/
def rawBodyC2 : String := "\x7b\"a\": \"b\"\x7d"

/-- The object `express.json()` produces from `rawBodyC2`. -/
def payloadC2 : Json := .obj [("a", .str "b")]

/-- A concrete well-formed push payload with one commit, used to evaluate the
push handler's plaintext output. -/
def p0 : WPush :=
  ⟨"refs/heads/main", "1111111111111111111111111111111111111111",
   "2222222222222222222222222222222222222222", "user/example-repo",
   "alice", "alice@example.com",
   [⟨"2222222222222222222222222222222222222222", "Add a file", "bob", "bob@example.com",
     ["new.txt"], ["changed.txt"], []⟩]⟩

/-- A fixed timestamp standing for `new Date().toISOString()`. -/
def now0 : String := "2024-01-01T00:00:00.000Z"

/-- A stand-in HMAC function for closed evaluations: constant 64-character
hex output (the length of a SHA-256 hex digest). -/
def hmac0 : String → String → String :=
  fun _ _ => String.mk (List.replicate 64 'a')

theorem data_mk (l : List Char) : (String.mk l).data = l := rfl

theorem mk_data (s : String) : String.mk s.data = s := by cases s; rfl

theorem hexVal_hexDigit : ∀ k < 16, hexVal (hexDigit k) = some k := by decide

theorem parseStrBody_escape (cs : List Char) (rest : List Char) :
    parseStrBody (escList cs ++ '"' :: rest) = some (cs, rest) := by
  induction cs with
  | nil =>
    simp only [escList, List.nil_append]
    rw [parseStrBody.eq_def]
    simp
  | cons c cs ih =>
    rw [escList, List.append_assoc]
    by_cases h1 : c = '"'
    · subst h1; rw [escChar]; simp only [if_pos rfl]
      rw [parseStrBody.eq_def]; simp [ih]
    · by_cases h2 : c = '\\'
      · subst h2
        have he : escChar '\\' = ['\\', '\\'] := by simp [escChar]
        rw [he, List.cons_append, List.cons_append, parseStrBody.eq_def]; simp [ih]
      · by_cases h3 : c = '\x08'
        · subst h3
          have he : escChar '\x08' = ['\\', 'b'] := by simp [escChar]
          rw [he, List.cons_append, List.cons_append, parseStrBody.eq_def]; simp [ih]
        · by_cases h4 : c = '\x0c'
          · subst h4
            have he : escChar '\x0c' = ['\\', 'f'] := by simp [escChar]
            rw [he, List.cons_append, List.cons_append, parseStrBody.eq_def]; simp [ih]
          · by_cases h5 : c = '\n'
            · subst h5
              have he : escChar '\n' = ['\\', 'n'] := by simp [escChar]
              rw [he, List.cons_append, List.cons_append, parseStrBody.eq_def]; simp [ih]
            · by_cases h6 : c = '\r'
              · subst h6
                have he : escChar '\r' = ['\\', 'r'] := by simp [escChar]
                rw [he, List.cons_append, List.cons_append, parseStrBody.eq_def]; simp [ih]
              · by_cases h7 : c = '\t'
                · subst h7
                  have he : escChar '\t' = ['\\', 't'] := by simp [escChar]
                  rw [he, List.cons_append, List.cons_append, parseStrBody.eq_def]; simp [ih]
                · by_cases h8 : c.toNat < 32
                  · have he : escChar c =
                        ['\\', 'u', '0', '0', hexDigit (c.toNat / 16), hexDigit (c.toNat % 16)] := by
                      simp [escChar, h1, h2, h3, h4, h5, h6, h7, h8]
                    have hhi : hexVal (hexDigit (c.toNat / 16)) = some (c.toNat / 16) :=
                      hexVal_hexDigit _ (by omega)
                    have hlo : hexVal (hexDigit (c.toNat % 16)) = some (c.toNat % 16) :=
                      hexVal_hexDigit _ (by omega)
                    have hn : c.toNat / 16 * 16 + c.toNat % 16 = c.toNat := by omega
                    have h00 : hexVal '0' = some 0 := rfl
                    rw [he]
                    simp only [List.cons_append]
                    rw [parseStrBody.eq_def]
                    simp [hex4, h00, hhi, hlo, hn, Char.ofNat_toNat, ih]
                  · have he : escChar c = [c] := by
                      simp [escChar, h1, h2, h3, h4, h5, h6, h7, h8]
                    rw [he, List.cons_append, parseStrBody.eq_def]
                    have hb1 : (c == '"') = false := by simp [h1]
                    have hb2 : (c == '\\') = false := by simp [h2]
                    simp [hb1, hb2, ih]

theorem dropLit_self (ts : List Char) (l : List Char) : dropLit ts (ts ++ l) = some l := by
  induction ts with
  | nil => simp [dropLit]
  | cons t ts ih => simp [dropLit, ih]

theorem skipWs_append_ws (ws : List Char) (h : ∀ c ∈ ws, isWsChar c = true) (l : List Char) :
    skipWs (ws ++ l) = skipWs l := by
  induction ws with
  | nil => simp
  | cons c cs ih =>
    have hc : isWsChar c = true := h c (by simp)
    simp only [List.cons_append, skipWs, hc, if_true]
    exact ih (fun d hd => h d (by simp [hd]))

theorem skipWs_quote (l : List Char) : skipWs ('"' :: l) = '"' :: l := by
  simp [skipWs, isWsChar]

theorem parseQuotedString_ws (ws : List Char) (h : ∀ c ∈ ws, isWsChar c = true)
    (v : String) (rest : List Char) :
    parseQuotedString (ws ++ (jStrChars v ++ rest)) = some (v, rest) := by
  unfold parseQuotedString
  rw [skipWs_append_ws ws h]
  simp only [jStrChars, List.cons_append, List.append_assoc, List.singleton_append]
  rw [skipWs_quote]
  simp [dropLit, parseStrBody_escape, mk_data]

theorem parseKeyed_ws (ws : List Char) (h : ∀ c ∈ ws, isWsChar c = true)
    (key : String) (hkey : escList key.data = key.data) (l : List Char) :
    parseKeyed key (ws ++ (jStrChars key ++ ':' :: l)) = some l := by
  unfold parseKeyed
  rw [skipWs_append_ws ws h]
  simp only [jStrChars, hkey, List.cons_append, List.append_assoc, List.singleton_append]
  rw [skipWs_quote]
  have hd := dropLit_self ('"' :: (key.data ++ ['"'])) (':' :: l)
  simp only [List.cons_append, List.append_assoc, List.singleton_append, List.nil_append] at hd ⊢
  rw [hd]
  simp [skipWs, isWsChar, dropLit]

theorem parseStrField_ws (ws : List Char) (h : ∀ c ∈ ws, isWsChar c = true)
    (key : String) (hkey : escList key.data = key.data) (v : String) (rest : List Char) :
    parseStrField key (ws ++ (jStrChars key ++ ':' :: ' ' :: (jStrChars v ++ rest))) = some (v, rest) := by
  unfold parseStrField
  rw [parseKeyed_ws ws h key hkey]
  exact parseQuotedString_ws [' '] (by decide) v rest

theorem parseComma_cons (l : List Char) : parseComma (',' :: l) = some l := by
  simp [parseComma, skipWs, isWsChar, dropLit]

theorem renderJson_str (gap ind : List Char) (s : String) :
    renderJson gap ind (.str s) = jStrChars s := by
  rw [renderJson.eq_def]

theorem renderJson_obj2 (ind : List Char) (p : String × Json) (ps : List (String × Json)) :
    renderJson gap2 ind (.obj (p :: ps)) =
      '\x7b' :: '\n' :: ((ind ++ gap2) ++ jStrChars p.1 ++ ':' :: ' ' ::
        renderJson gap2 (ind ++ gap2) p.2 ++ renderPropsG gap2 ind ps ++ '\n' :: ind ++ ['\x7d']) := by
  rw [renderJson.eq_def]
  simp [gap2]

theorem renderPropsG_nil (ind : List Char) : renderPropsG gap2 ind [] = [] := by
  rw [renderPropsG.eq_def]

theorem renderPropsG_cons (ind : List Char) (p : String × Json) (ps : List (String × Json)) :
    renderPropsG gap2 ind (p :: ps) =
      ',' :: '\n' :: ((ind ++ gap2) ++ jStrChars p.1 ++ ':' :: ' ' ::
        renderJson gap2 (ind ++ gap2) p.2 ++ renderPropsG gap2 ind ps) := by
  rw [renderPropsG.eq_def]

theorem renderJson_arr_nil (ind : List Char) : renderJson gap2 ind (.arr []) = ['[', ']'] := by
  rw [renderJson.eq_def]

theorem renderJson_arr2 (ind : List Char) (v : Json) (vs : List Json) :
    renderJson gap2 ind (.arr (v :: vs)) =
      '[' :: '\n' :: ((ind ++ gap2) ++ renderJson gap2 (ind ++ gap2) v ++
        renderItemsG gap2 ind vs ++ '\n' :: ind ++ [']']) := by
  rw [renderJson.eq_def]
  simp [gap2]

theorem renderItemsG_nil (ind : List Char) : renderItemsG gap2 ind [] = [] := by
  rw [renderItemsG.eq_def]

theorem renderItemsG_cons (ind : List Char) (v : Json) (vs : List Json) :
    renderItemsG gap2 ind (v :: vs) =
      ',' :: '\n' :: ((ind ++ gap2) ++ renderJson gap2 (ind ++ gap2) v ++ renderItemsG gap2 ind vs) := by
  rw [renderItemsG.eq_def]

theorem parseStrField_nl2 (key : String) (hkey : escList key.data = key.data)
    (v : String) (rest : List Char) :
    parseStrField key ('\n' :: ' ' :: ' ' ::
      (jStrChars key ++ ':' :: ' ' :: (jStrChars v ++ rest))) = some (v, rest) :=
  parseStrField_ws ['\n', ' ', ' '] (by decide) key hkey v rest

theorem parseStrField_nl4 (key : String) (hkey : escList key.data = key.data)
    (v : String) (rest : List Char) :
    parseStrField key ('\n' :: ' ' :: ' ' :: ' ' :: ' ' ::
      (jStrChars key ++ ':' :: ' ' :: (jStrChars v ++ rest))) = some (v, rest) :=
  parseStrField_ws ['\n', ' ', ' ', ' ', ' '] (by decide) key hkey v rest

theorem parseStrField_nl6 (key : String) (hkey : escList key.data = key.data)
    (v : String) (rest : List Char) :
    parseStrField key ('\n' :: ' ' :: ' ' :: ' ' :: ' ' :: ' ' :: ' ' ::
      (jStrChars key ++ ':' :: ' ' :: (jStrChars v ++ rest))) = some (v, rest) :=
  parseStrField_ws ['\n', ' ', ' ', ' ', ' ', ' ', ' '] (by decide) key hkey v rest

theorem parseFileObj_render (f : FileChange) (rest : List Char) :
    parseFileObj ('\n' :: ' ' :: ' ' :: ' ' :: ' ' ::
      (renderJson gap2 [' ', ' ', ' ', ' '] (fileJson f) ++ rest)) = some (f, rest) := by
  unfold parseFileObj
  rw [fileJson, renderJson_obj2, renderPropsG_cons, renderPropsG_nil]
  simp only [renderJson_str, gap2, List.cons_append, List.nil_append, List.append_assoc,
    List.append_nil, List.singleton_append]
  simp only [skipWs, isWsChar, dropLit]
  simp [Option.bind_eq_bind, Option.some_bind,
        parseStrField_nl6 "status" (by decide), parseComma_cons,
        parseStrField_nl6 "file" (by decide), skipWs, isWsChar, dropLit]

theorem parseFileTail_render (fs : List FileChange) : ∀ (fuel : Nat), fs.length < fuel →
    ∀ rest, parseFileTail fuel
      (renderItemsG gap2 gap2 (fs.map fileJson) ++ '\n' :: ' ' :: ' ' :: ']' :: rest) =
      some (fs, rest) := by
  induction fs with
  | nil =>
    intro fuel h rest
    obtain ⟨k, rfl⟩ : ∃ k, fuel = k + 1 := ⟨fuel - 1, by omega⟩
    rw [List.map_nil, renderItemsG_nil, List.nil_append]
    simp [parseFileTail, parseComma, skipWs, isWsChar, dropLit]
  | cons f fs ih =>
    intro fuel h rest
    obtain ⟨k, rfl⟩ : ∃ k, fuel = k + 1 := ⟨fuel - 1, by omega⟩
    rw [List.map_cons, renderItemsG_cons]
    rw [show gap2 ++ gap2 = ([' ', ' ', ' ', ' '] : List Char) from rfl]
    simp only [List.cons_append, List.append_assoc, List.nil_append]
    rw [parseFileTail]
    simp only [parseComma_cons, parseFileObj_render]
    rw [ih k (by simp at h; omega)]
    simp

theorem renderItemsG_length_ge (fs : List FileChange) :
    fs.length ≤ (renderItemsG gap2 gap2 (fs.map fileJson)).length := by
  induction fs with
  | nil => simp
  | cons f fs ih =>
    rw [List.map_cons, renderItemsG_cons]
    simp only [List.length_cons, List.length_append]
    omega

theorem dropRBracket_fileObj (f : FileChange) (r : List Char) :
    dropLit [']'] (skipWs (renderJson gap2 [' ', ' ', ' ', ' '] (fileJson f) ++ r)) = none := by
  rw [fileJson, renderJson_obj2]
  simp [skipWs, isWsChar, dropLit]

theorem parseFileArr_render (fcs : List FileChange) (rest : List Char) :
    parseFileArr (renderJson gap2 gap2 (.arr (fcs.map fileJson)) ++ rest) = some (fcs, rest) := by
  cases fcs with
  | nil =>
    rw [List.map_nil, renderJson_arr_nil]
    simp [parseFileArr, skipWs, isWsChar, dropLit]
  | cons f fs =>
    rw [List.map_cons, renderJson_arr2]
    rw [show gap2 ++ gap2 = ([' ', ' ', ' ', ' '] : List Char) from rfl]
    unfold parseFileArr
    simp only [List.cons_append, List.append_assoc, List.nil_append]
    rw [show ('\n' :: (gap2 ++ (']' :: rest)) : List Char) = '\n' :: ' ' :: ' ' :: ']' :: rest from rfl]
    simp [skipWs, isWsChar, dropLit, dropRBracket_fileObj, parseFileObj_render,
      Option.bind_eq_bind, Option.some_bind]
    rw [parseFileTail_render fs _ (by have := renderItemsG_length_ge fs; omega)]
    simp

theorem dropBrace_at (l : List Char) : dropLit ['\x7b'] (skipWs ('\x7b' :: l)) = some l := by
  simp [skipWs, isWsChar, dropLit]

theorem dropBrace_sp (l : List Char) : dropLit ['\x7b'] (skipWs (' ' :: '\x7b' :: l)) = some l := by
  simp [skipWs, isWsChar, dropLit]

theorem dropRBrace_nlg (l : List Char) :
    dropLit ['\x7d'] (skipWs ('\n' :: (gap2 ++ ('\x7d' :: l)))) = some l := by
  simp [skipWs, isWsChar, dropLit, gap2]

theorem dropRBrace_nl (l : List Char) :
    dropLit ['\x7d'] (skipWs ('\n' :: '\x7d' :: l)) = some l := by
  simp [skipWs, isWsChar, dropLit]

theorem parseKeyed_g1 (key : String) (hkey : escList key.data = key.data) (l : List Char) :
    parseKeyed key ('\n' :: (gap2 ++ (jStrChars key ++ (':' :: l)))) = some l :=
  parseKeyed_ws ('\n' :: gap2) (by decide) key hkey l

theorem parseStrField_g1 (key : String) (hkey : escList key.data = key.data)
    (v : String) (rest : List Char) :
    parseStrField key ('\n' :: (gap2 ++ (jStrChars key ++ (':' :: ' ' :: (jStrChars v ++ rest))))) =
      some (v, rest) :=
  parseStrField_ws ('\n' :: gap2) (by decide) key hkey v rest

theorem parseStrField_g2 (key : String) (hkey : escList key.data = key.data)
    (v : String) (rest : List Char) :
    parseStrField key
      ('\n' :: (gap2 ++ (gap2 ++ (jStrChars key ++ (':' :: ' ' :: (jStrChars v ++ rest)))))) =
      some (v, rest) :=
  parseStrField_ws ('\n' :: (gap2 ++ gap2)) (by decide) key hkey v rest

theorem parseRecIds_seg (i p : String) (rest : List Char) :
    parseRecIds ('\x7b' :: '\n' :: (gap2 ++ (jStrChars "id" ++ (':' :: ' ' ::
      (jStrChars i ++ (',' :: '\n' :: (gap2 ++ (jStrChars "previousCommit" ++ (':' :: ' ' ::
        (jStrChars p ++ (',' :: rest))))))))))) = some ((i, p), rest) := by
  unfold parseRecIds
  simp only [Option.bind_eq_bind]
  rw [dropBrace_at]
  simp only [Option.some_bind]
  rw [parseStrField_g1 "id" (by decide)]
  simp only [Option.some_bind]
  rw [parseComma_cons]
  simp only [Option.some_bind]
  rw [parseStrField_g1 "previousCommit" (by decide)]
  simp only [Option.some_bind]
  rw [parseComma_cons]
  simp only [Option.some_bind]
  rfl

theorem parseCommitterObj_seg (nm em : String) (rest : List Char) :
    parseCommitterObj ('\n' :: (gap2 ++ (jStrChars "committer" ++ (':' :: ' ' :: '\x7b' :: '\n' ::
      (gap2 ++ (gap2 ++ (jStrChars "name" ++ (':' :: ' ' ::
        (jStrChars nm ++ (',' :: '\n' :: (gap2 ++ (gap2 ++ (jStrChars "email" ++ (':' :: ' ' ::
          (jStrChars em ++ ('\n' :: (gap2 ++ ('\x7d' :: rest)))))))))))))))))) =
      some (⟨nm, em⟩, rest) := by
  unfold parseCommitterObj
  simp only [Option.bind_eq_bind]
  rw [parseKeyed_g1 "committer" (by decide)]
  simp only [Option.some_bind]
  rw [dropBrace_sp]
  simp only [Option.some_bind]
  rw [parseStrField_g2 "name" (by decide)]
  simp only [Option.some_bind]
  rw [parseComma_cons]
  simp only [Option.some_bind]
  rw [parseStrField_g2 "email" (by decide)]
  simp only [Option.some_bind]
  rw [dropRBrace_nlg]
  simp only [Option.some_bind]
  rfl

theorem parseRecMsgTs_seg (m t : String) (rest : List Char) :
    parseRecMsgTs (',' :: '\n' :: (gap2 ++ (jStrChars "message" ++ (':' :: ' ' ::
      (jStrChars m ++ (',' :: '\n' :: (gap2 ++ (jStrChars "timestamp" ++ (':' :: ' ' ::
        (jStrChars t ++ (',' :: rest))))))))))) = some ((m, t), rest) := by
  unfold parseRecMsgTs
  simp only [Option.bind_eq_bind]
  rw [parseComma_cons]
  simp only [Option.some_bind]
  rw [parseStrField_g1 "message" (by decide)]
  simp only [Option.some_bind]
  rw [parseComma_cons]
  simp only [Option.some_bind]
  rw [parseStrField_g1 "timestamp" (by decide)]
  simp only [Option.some_bind]
  rw [parseComma_cons]
  simp only [Option.some_bind]
  rfl

theorem parseFileArr_sp (l : List Char) : parseFileArr (' ' :: l) = parseFileArr l := by
  unfold parseFileArr
  rw [show skipWs (' ' :: l) = skipWs l from by simp [skipWs, isWsChar]]

theorem parseRecFilesDiff_seg (fcs : List FileChange) (df : String) :
    parseRecFilesDiff ('\n' :: (gap2 ++ (jStrChars "filesChanged" ++ (':' :: ' ' ::
      (renderJson gap2 gap2 (.arr (fcs.map fileJson)) ++ (',' :: '\n' :: (gap2 ++
        (jStrChars "diff" ++ (':' :: ' ' :: (jStrChars df ++ ('\n' :: '\x7d' :: []))))))))))) =
      some (fcs, df) := by
  unfold parseRecFilesDiff
  simp only [Option.bind_eq_bind]
  rw [parseKeyed_g1 "filesChanged" (by decide)]
  simp only [Option.some_bind]
  rw [parseFileArr_sp, parseFileArr_render]
  simp only [Option.some_bind]
  rw [parseComma_cons]
  simp only [Option.some_bind]
  rw [parseStrField_g1 "diff" (by decide)]
  simp only [Option.some_bind]
  rw [dropRBrace_nl]
  simp only [Option.some_bind]
  simp [skipWs]

theorem except_ok_bind {α β ε : Type} (a : α) (f : α → Except ε β) :
    (Except.ok (ε := ε) a >>= f) = f a := rfl

theorem fileSectionJ_w (title sym : String) (files : List String) :
    fileSectionJ title sym (some (.arr (files.map .str))) = .ok (pushFileSection title sym files) := by
  cases files with
  | nil => simp [fileSectionJ, jsLenGuard, pushFileSection, except_ok_bind]
  | cons f fs =>
    simp [fileSectionJ, jsLenGuard, pushFileSection, jsToStr, jsonToStr, List.map_map,
      Function.comp_def, except_ok_bind]

theorem commitBlockJ_w (prev : String) (c : WCommit) :
    commitBlockJ (some (.str prev)) (wcommitJson c) = .ok (pushCommitBlock prev c) := by
  unfold commitBlockJ wcommitJson
  simp [jsGet, lookupKey, fileSectionJ_w, jsToStr, jsonToStr, pushCommitBlock, except_ok_bind]

theorem mapM_loop_commitBlocks (prev : String) (cs : List WCommit) : ∀ acc : List String,
    List.mapM.loop (commitBlockJ (some (.str prev))) (cs.map wcommitJson) acc =
      .ok (acc.reverse ++ cs.map (pushCommitBlock prev)) := by
  induction cs with
  | nil => intro acc; simp [List.mapM.loop]; rfl
  | cons c cs ih =>
    intro acc
    simp only [List.map_cons, List.mapM.loop, commitBlockJ_w, except_ok_bind, ih]
    simp

theorem mapM_commitBlocks (prev : String) (cs : List WCommit) :
    (cs.map wcommitJson).mapM (commitBlockJ (some (.str prev))) =
      .ok (cs.map (pushCommitBlock prev)) := by
  have := mapM_loop_commitBlocks prev cs []
  simpa [List.mapM] using this

theorem handlePushEvent_wellFormed (now : String) (p : WPush) (h : p.commits ≠ []) :
    handlePushEvent now (wpushJson p) = .ok [(commitsLogPath, pushLogLayout now p)] := by
  obtain ⟨c, cs, hcc⟩ : ∃ c cs, p.commits = c :: cs := by
    cases hp : p.commits with
    | nil => exact absurd hp h
    | cons c cs => exact ⟨c, cs, rfl⟩
  unfold handlePushEvent wpushJson
  simp only [jsGet, lookupKey, hcc, truthy, jsLenGuard, except_ok_bind, jsToStr, jsonToStr,
    List.mapM]
  simp [except_ok_bind, jsToStr, jsonToStr]
  rw [show wcommitJson c :: List.map wcommitJson cs = List.map wcommitJson (c :: cs) from rfl,
    mapM_loop_commitBlocks]
  simp [except_ok_bind, pushLogLayout, hcc, lookupKey, jsonToStr]

/-- Claim C1 (code-bug evidence): the signature verifier is not total. Whenever
the configured secret and the provided signature header are non-empty and the
header's UTF-8 byte length differs from that of the computed
`sha256=`-prefixed hex digest string, `verifyGithubWebhook` propagates the
length fault of `crypto.timingSafeEqual` (modelled as `.error ()`) instead of
short-circuiting to `false`, refuting "returns a boolean and never throws". -/
theorem verifyGithubWebhook_throws_on_length_mismatch
    (secret sig : String) (hmacHex : String → String → String) (payload : Json)
    (h1 : secret ≠ "") (h2 : sig ≠ "")
    (h3 : (utf8Bytes ("sha256=" ++ hmacHex secret (macMessage payload))).length ≠
      (utf8Bytes sig).length) :
    verifyGithubWebhook (some secret) hmacHex payload (some sig) = .error () := by
  simp [verifyGithubWebhook, strFalsy, h1, h2, timingSafeEqual, h3]

set_option maxRecDepth 8192 in
/-- Closed instance of the C1 theorem at a concrete request: secret `"secret"`,
header `"sha256=short"`, body `{}`. -/
theorem verifyGithubWebhook_throws_witness :
    verifyGithubWebhook (some "secret") hmac0 (Json.obj []) (some "sha256=short") = .error () :=
  verifyGithubWebhook_throws_on_length_mismatch "secret" "sha256=short" hmac0 (Json.obj [])
    (by decide) (by decide) (by decide)

set_option maxRecDepth 8192 in
/-- Claim C2 (code-bug evidence): the message the verifier feeds to the HMAC is
`JSON.stringify(req.body)` — a re-serialization of the parsed payload — and for
the raw request body `{"a": "b"}` (with an interior space) that re-serialization
differs from the exact byte sequence GitHub signed. -/
theorem macMessage_is_reserialization :
    jsonParseTop rawBodyC2 = some payloadC2 ∧
    macMessage payloadC2 = "\x7b\"a\":\"b\"\x7d" ∧
    macMessage payloadC2 ≠ rawBodyC2 :=
  ⟨rfl, rfl, by decide⟩

set_option maxRecDepth 8192 in
/-- Claim C3 counterexample: the entry the push handler appends to `commits.log`
for a concrete well-formed one-commit payload is the handler's own
Repository/Branch layout and does not begin with the section-4.1
`COMMIT DETAILS` header line. -/
theorem pushLog_entry_not_spec41 :
    handlePushEvent now0 (wpushJson p0) = .ok [(commitsLogPath, pushLogLayout now0 p0)] ∧
    spec41Header.data.isPrefixOf (pushLogLayout now0 p0).data = false :=
  ⟨handlePushEvent_wellFormed now0 p0 (by simp [p0]), by decide⟩

/-- Claim C3 (amended): entries appended to `commits.log` by the GitHub push
handler follow the handler's own layout — Repository/Branch/Pushed-by/Date
header, then for each commit an 80-equals delimiter, `Committer: <name>
(<email>)`, commit id, previous commit, message and the Added/Modified/Removed
file sections — while the fixed section-4.1 `COMMIT DETAILS` layout is exactly
the text `formatCommitForDocs` produces for the Google-Docs sync. -/
theorem pushLog_layout_and_spec41_formatter :
    (∀ r : CommitRecord, formatCommitForDocs r = spec41Plaintext r) ∧
    (∀ (now : String) (p : WPush), p.commits ≠ [] →
      handlePushEvent now (wpushJson p) = .ok [(commitsLogPath, pushLogLayout now p)]) :=
  ⟨fun _ => rfl, fun now p h => handlePushEvent_wellFormed now p h⟩

/-- Closed instance of the amended C3 theorem at the concrete payload `p0`. -/
theorem pushLog_layout_witness :
    handlePushEvent now0 (wpushJson p0) = .ok [(commitsLogPath, pushLogLayout now0 p0)] :=
  pushLog_layout_and_spec41_formatter.2 now0 p0 (by simp [p0])

/-- Claim C4: every commit record written to the JSON log round-trips. The
appended entry is `JSON.stringify(commitInfo, null, 2)` followed by exactly two
newlines, the serialized object carries the stable key order id, previousCommit,
committer, message, timestamp, filesChanged, diff, and deserializing the JSON
text yields a record with identical field values, the diff text verbatim. -/
theorem processedLog_roundTrip (r : CommitRecord) :
    processedLogEntry r = String.mk (renderJson gap2 [] (commitJson r)) ++ "\n\n" ∧
    objKeys (commitJson r) =
      ["id", "previousCommit", "committer", "message", "timestamp", "filesChanged", "diff"] ∧
    parseCommitRecord (String.mk (renderJson gap2 [] (commitJson r))) = some r := by
  refine ⟨rfl, rfl, ?_⟩
  unfold parseCommitRecord
  rw [data_mk]
  rw [commitJson, renderJson_obj2]
  simp only [renderPropsG_cons, renderPropsG_nil, renderJson_obj2, renderJson_str,
    List.nil_append, List.cons_append, List.append_assoc, List.append_nil]
  simp only [Option.bind_eq_bind]
  rw [parseRecIds_seg]
  simp only [Option.some_bind]
  rw [parseCommitterObj_seg]
  simp only [Option.some_bind]
  rw [parseRecMsgTs_seg]
  simp only [Option.some_bind]
  rw [parseRecFilesDiff_seg]
  simp only [Option.some_bind]
  rfl

/-- Claim C5: the plaintext status-symbol mapping is total — `A` maps to `+`,
`D` maps to `-`, and every other status string maps to `~`. -/
theorem statusSymbol_mapping :
    statusSymbol "A" = "+" ∧ statusSymbol "D" = "-" ∧
    ∀ s : String, s ≠ "A" → s ≠ "D" → statusSymbol s = "~" :=
  ⟨rfl, rfl, fun s h1 h2 => by simp [statusSymbol, h1, h2]⟩

/-- Closed instance of the C5 theorem, covering `M` and an unrecognized code. -/
theorem statusSymbol_mapping_witness :
    statusSymbol "A" = "+" ∧ statusSymbol "D" = "-" ∧
    statusSymbol "M" = "~" ∧ statusSymbol "X9" = "~" :=
  ⟨statusSymbol_mapping.1, statusSymbol_mapping.2.1,
   statusSymbol_mapping.2.2 "M" (by decide) (by decide),
   statusSymbol_mapping.2.2 "X9" (by decide) (by decide)⟩

/-- Claim C6: a POST to the GitHub webhook route with no `X-GitHub-Event`
header is answered 400 and performs no file-system write, for every
environment, signature header and body. -/
theorem handleGithubWebhook_missingHeader_400 (secret : Option String)
    (hmacHex : String → String → String) (now : String) (sig : Option String) (body : Json) :
    handleGithubWebhook secret hmacHex now none sig body = ⟨400, []⟩ := rfl

/-- Claim C7 counterexample: with a configured secret and no signature header,
a push POST whose commits list is empty is answered 401, not 200. -/
theorem emptyPush_badSignature_401 :
    handleGithubWebhook (some "s") hmac0 now0 (some "push") none
      (Json.obj [("commits", Json.arr [])]) = ⟨401, []⟩ ∧ (401 : Nat) ≠ 200 :=
  ⟨rfl, by decide⟩

/-- Claim C7 (amended): provided no webhook secret is configured or signature
verification succeeds, a push POST whose commits list is absent or empty is
answered 200 and performs no file-system write. -/
theorem handleGithubWebhook_emptyPush_200 (secret : Option String)
    (hmacHex : String → String → String) (now : String) (sig : Option String) (body : Json)
    (hAuth : strFalsy secret = true ∨ verifyGithubWebhook secret hmacHex body sig = .ok true)
    (hCommits : jsGet (some body) "commits" = .ok none ∨
      jsGet (some body) "commits" = .ok (some (.arr []))) :
    handleGithubWebhook secret hmacHex now (some "push") sig body = ⟨200, []⟩ := by
  have hpe : handlePushEvent now body = .ok [] := by
    cases body with
    | null => simp [jsGet] at hCommits
    | obj ps =>
      rcases hCommits with h | h <;> simp [jsGet] at h <;>
        simp [handlePushEvent, jsGet, h, truthy, jsLenGuard, except_ok_bind]
    | bool b => simp [handlePushEvent, jsGet, truthy, except_ok_bind]
    | num q => simp [handlePushEvent, jsGet, truthy, except_ok_bind]
    | str s => simp [handlePushEvent, jsGet, truthy, except_ok_bind]
    | arr xs => simp [handlePushEvent, jsGet, truthy, except_ok_bind]
  have hev : strFalsy (some "push") = false := rfl
  rcases hAuth with hA | hA
  · simp [handleGithubWebhook, hA, hev, handleEventDispatch, hpe]
  · by_cases hs : strFalsy secret = true
    · simp [handleGithubWebhook, hs, hev, handleEventDispatch, hpe]
    · have hs2 : strFalsy secret = false := by
        cases hsf : strFalsy secret
        · rfl
        · exact absurd hsf hs
      simp [handleGithubWebhook, hs2, hA, hev, handleEventDispatch, hpe]

/-- Closed instance of the amended C7 theorem: no secret configured, body with
an empty commits array. -/
theorem handleGithubWebhook_emptyPush_200_witness :
    handleGithubWebhook none hmac0 now0 (some "push") none
      (Json.obj [("commits", Json.arr [])]) = ⟨200, []⟩ :=
  handleGithubWebhook_emptyPush_200 none hmac0 now0 none (Json.obj [("commits", Json.arr [])])
    (Or.inl rfl) (Or.inr rfl)

/-- Claim C8 counterexample: a body whose `event` field is present but the
empty string is answered 400, not 200 — presence is tested by truthiness. -/
theorem presentFalsyEvent_400 :
    jsGet (some (Json.obj [("event", Json.str "")])) "event" = .ok (some (.str "")) ∧
    handleWebhook (some "key") (Json.obj [("event", Json.str "")]) = ⟨400, false, []⟩ ∧
    (400 : Nat) ≠ 200 :=
  ⟨rfl, rfl, by decide⟩

/-- Claim C8 (amended): a falsy `event` value (missing, null, false, 0 or the
empty string) is answered 400 with no chat-completion call; a truthy `event`
other than the string `content_request` is answered 200 with `data: null` and
no chat-completion call. -/
theorem handleWebhook_event_dispatch (apiKey : Option String) (body : Json) (ev : JsVal)
    (hev : jsGet (some body) "event" = .ok ev) :
    (truthy ev = false → handleWebhook apiKey body = ⟨400, false, []⟩) ∧
    (truthy ev = true → ev ≠ some (.str "content_request") →
      handleWebhook apiKey body = ⟨200, true, []⟩) := by
  have hdata : ∃ w, jsGet (some body) "data" = .ok w := by
    cases body <;> simp [jsGet] at hev ⊢
  obtain ⟨w, hw⟩ := hdata
  constructor
  · intro ht
    unfold handleWebhook
    rw [hev, hw]
    simp [ht]
  · intro ht hne
    unfold handleWebhook
    rw [hev, hw]
    simp only [ht]
    rcases ev with _ | j
    · simp [truthy] at ht
    · cases j with
      | str s =>
        have hs : s ≠ "content_request" := fun hh => hne (by rw [hh])
        simp [hs]
      | null => simp [truthy] at ht
      | bool b => simp
      | num q => simp
      | arr xs => simp
      | obj ps => simp

/-- Closed instance of the amended C8 theorem: a truthy non-content_request
event gives 200 with null data, a present-but-false event gives 400. -/
theorem handleWebhook_event_dispatch_witness :
    handleWebhook none (Json.obj [("event", Json.str "ping")]) = ⟨200, true, []⟩ ∧
    handleWebhook none (Json.obj [("event", Json.bool false)]) = ⟨400, false, []⟩ :=
  ⟨(handleWebhook_event_dispatch none (Json.obj [("event", Json.str "ping")])
      (some (.str "ping")) rfl).2 rfl (by intro hh; simp at hh),
   (handleWebhook_event_dispatch none (Json.obj [("event", Json.bool false)])
      (some (.bool false)) rfl).1 rfl⟩

/-- Claim C9: the Doc Sync append operation reports failure without any
document fetch or update when the document id is unset (whatever the client
state), and likewise when the credentials path is unset on a fresh client. -/
theorem appendToDocument_disabled (creds docsId : Option String) (ready : Bool)
    (content : String) :
    (strFalsy docsId = true → appendToDocument creds docsId ready content none = (false, [])) ∧
    (strFalsy creds = true → ready = false →
      appendToDocument creds docsId ready content none = (false, [])) := by
  constructor
  · intro h
    by_cases hr : ready = false ∧ strFalsy creds = true
    · simp [appendToDocument, hr]
    · simp [appendToDocument, hr, h, show strFalsy (none : Option String) = true from rfl]
  · intro h1 h2
    simp [appendToDocument, h1, h2]

/-- Closed instance of the C9 theorem: document id unset with credentials set,
and credentials unset with document id set. -/
theorem appendToDocument_disabled_witness :
    appendToDocument (some "gcreds.json") none false "text" none = (false, []) ∧
    appendToDocument none (some "docid") false "text" none = (false, []) :=
  ⟨(appendToDocument_disabled (some "gcreds.json") none false "text").1 rfl,
   (appendToDocument_disabled none (some "docid") false "text").2 rfl rfl⟩

/-- Evaluation of `buildChatRequest` on an object-valued `data`. -/
theorem buildChatRequest_obj (ps : List (String × Json)) :
    buildChatRequest (some (.obj ps)) =
      .ok ⟨jsOr (lookupKey ps "model") (some (.str "gpt-3.5-turbo")),
        (if truthy (lookupKey ps "context") = true
          then "You are a helpful assistant. Context: " ++ jsToStr (lookupKey ps "context")
          else "You are a helpful assistant."),
        jsOr (lookupKey ps "prompt") (some (.str defaultPrompt)),
        jsOr (lookupKey ps "temperature") (some (.num (7 / 10))),
        jsOr (lookupKey ps "max_tokens") (some (.num 500))⟩ := by
  simp [buildChatRequest, jsGet, except_ok_bind]

/-- Claim C10: falsy option values in a content request are silently replaced
by the documented defaults before the chat-completion call — a temperature of
0 is sent as 0.7, a max_tokens of 0 as 500, and an empty prompt as the default
prompt text. -/
theorem chatRequest_falsy_defaults (data : JsVal) :
    (jsGet data "temperature" = .ok (some (.num 0)) →
      (buildChatRequest data).map ChatRequest.temperature = .ok (some (.num (7 / 10)))) ∧
    (jsGet data "max_tokens" = .ok (some (.num 0)) →
      (buildChatRequest data).map ChatRequest.maxTokens = .ok (some (.num 500))) ∧
    (jsGet data "prompt" = .ok (some (.str "")) →
      (buildChatRequest data).map ChatRequest.user = .ok (some (.str defaultPrompt))) := by
  refine ⟨?_, ?_, ?_⟩ <;> intro h
  all_goals
    cases data with
    | none => simp [jsGet] at h
    | some j =>
      cases j with
      | null => simp [jsGet] at h
      | bool b => simp [jsGet] at h
      | num q => simp [jsGet] at h
      | str s => simp [jsGet] at h
      | arr xs => simp [jsGet] at h
      | obj ps =>
        simp [jsGet] at h
        rw [buildChatRequest_obj ps]
        simp [Except.map, h, jsOr, truthy]

/-- Closed instance of the C10 theorem at an explicit request supplying an
empty prompt, temperature 0 and max_tokens 0. -/
theorem chatRequest_falsy_defaults_witness :
    (buildChatRequest (some (Json.obj [("prompt", Json.str ""), ("temperature", Json.num 0),
        ("max_tokens", Json.num 0)]))).map ChatRequest.temperature =
      .ok (some (.num (7 / 10))) ∧
    (buildChatRequest (some (Json.obj [("prompt", Json.str ""), ("temperature", Json.num 0),
        ("max_tokens", Json.num 0)]))).map ChatRequest.maxTokens = .ok (some (.num 500)) ∧
    (buildChatRequest (some (Json.obj [("prompt", Json.str ""), ("temperature", Json.num 0),
        ("max_tokens", Json.num 0)]))).map ChatRequest.user = .ok (some (.str defaultPrompt)) :=
  ⟨(chatRequest_falsy_defaults _).1 rfl, (chatRequest_falsy_defaults _).2.1 rfl,
   (chatRequest_falsy_defaults _).2.2 rfl⟩
